import Mathlib

/-!
# Verification of the energy-stock ranking and enrichment scripts

Shallow embedding of the ranking function `get_top_energy_stocks` (defined
identically in `energy_stock_price_analysis.py` and `finance_data_transform.py`)
and of the per-ticker price-enrichment loop of `energy_stock_price_analysis.py`.

Modelling conventions:
* A pandas DataFrame of instruments is a list of records together with flags
  recording which optional columns (`market_cap`, `currency`, `exchange`)
  are present; when a flag is `false` the corresponding record field carries
  no meaning and the code paths guarded by `'col' in results.columns` are
  skipped, exactly as in the source.
* Float scores are modelled by `ℚ` (exact arithmetic; the scripts only add,
  multiply and divide small quantities).
* `Series.rank(pct=True)` is pandas' default `method='average'` rank divided
  by the number of rows: for a value `x` in population `pop` the rank is
  `countLT + (countEQ + 1)/2` where `countLT`/`countEQ` count strictly
  smaller / equal entries.
* `DataFrame.sort_values(by, ascending=False)` uses pandas' default
  `kind='quicksort'`, which is documented as not stable: the program promises
  a non-increasing score order but no particular order within tie groups.
  The embedding uses a deterministic stand-in (`List.insertionSort` on
  "score ≥ score") so that the pipeline stays executable; no theorem below
  relies on the stand-in's tie order — every property proved over the sort
  (membership, length, score bounds, the two-script equivalence) is invariant
  under permuting equal-score entries.
* Python's substring operator `tok in s` and `str.upper()` are modelled
  character-exactly on `List Char` (the data is ASCII).
-/

/-! ## Library model: Python string operations -/

/-- Python `str.upper()` for a single ASCII character (the exchange and
currency strings in the data are ASCII). -/
def charUpper (c : Char) : Char :=
  if 97 ≤ c.toNat ∧ c.toNat ≤ 122 then Char.ofNat (c.toNat - 32) else c

/-- Python `str.upper()` on an ASCII string. -/
def upperAscii (s : String) : String :=
  ⟨s.data.map charUpper⟩

/-- Does `pat` occur at the head of `s`? (helper for substring search). -/
def leadMatch : List Char → List Char → Bool
  | [], _ => true
  | _ :: _, [] => false
  | a :: as, b :: bs => a == b && leadMatch as bs

/-- Python's substring operator: `hasSub pat s` is `pat in s` on the
underlying character lists. -/
def hasSub (pat : List Char) : List Char → Bool
  | [] => leadMatch pat []
  | c :: rest => leadMatch pat (c :: rest) || hasSub pat rest

/-! ## Data model -/

/-- One instrument record of the equity universe table: the DataFrame index
entry (ticker symbol) plus the descriptive columns used by the scripts.
`marketCap` is `none` when the `market_cap` cell is NaN. -/
structure Row where
  id : String
  name : String
  marketCap : Option String
  currency : String
  exchange : String
  country : String
deriving DecidableEq, Repr

/-- The input DataFrame: rows plus presence flags for the three optional
columns probed by `'market_cap' in results.columns` etc.  When a flag is
`false` the corresponding field of each `Row` is meaningless and unused. -/
structure DF where
  hasMarketCap : Bool
  hasCurrency : Bool
  hasExchange : Bool
  rows : List Row
deriving DecidableEq, Repr

/-! ## Library model: pandas rank and sort -/

/-- pandas `Series.rank(pct=True)` (default `method='average'`) of value `x`
within population `pop`: the average of the 1-based ascending positions the
tied block occupies, divided by the population size.  The tied block with
value `x` occupies positions `countLT + 1 … countLT + countEQ`, whose mean is
`countLT + (countEQ + 1)/2`. -/
def pandasRankPct (pop : List ℚ) (x : ℚ) : ℚ :=
  ((pop.countP (fun y => decide (y < x)) : ℚ)
      + ((pop.countP (fun y => decide (y = x)) : ℚ) + 1) / 2)
    / (pop.length : ℚ)

/-- The descending comparison used by `sort_values('rank_score', ascending=False)`:
`a` may precede `b` when the score of `a` is at least that of `b`. -/
def scoreGE (a b : Row × ℚ) : Prop := b.2 ≤ a.2

instance : DecidableRel scoreGE := fun a b => inferInstanceAs (Decidable (b.2 ≤ a.2))

instance : IsTotal (Row × ℚ) scoreGE := ⟨fun a b => le_total b.2 a.2⟩

instance : IsTrans (Row × ℚ) scoreGE := ⟨fun _ _ _ hab hbc => le_trans hbc hab⟩

/-- Deterministic stand-in for `results.sort_values('rank_score',
ascending=False)`: a sort on non-increasing score.  The source's sort
(pandas default `kind='quicksort'`) guarantees the score order but not the
order within tie groups, so only tie-order-invariant facts are proved about
this definition (see the header). -/
def sortValuesDesc (l : List (Row × ℚ)) : List (Row × ℚ) :=
  l.insertionSort scoreGE

/-! ## Ranker embedding (`energy_stock_price_analysis.py`, `get_top_energy_stocks`) -/

/-- The dict `cap_scores = {'Micro Cap': 1, …, 'Mega Cap': 5}` together with
`.map(cap_scores).fillna(0)`: tiers outside the dict map to 0. -/
def capScoreOfTier (s : String) : ℚ :=
  if s = "Micro Cap" then 1
  else if s = "Small Cap" then 2
  else if s = "Mid Cap" then 3
  else if s = "Large Cap" then 4
  else if s = "Mega Cap" then 5
  else 0

/-- The `market_cap_score` column value of a row (`none` = NaN cell, which the
`notna` filter removes before this is ever used; `fillna(0)` keeps it total). -/
def rowCapScore (r : Row) : ℚ :=
  match r.marketCap with
  | none => 0
  | some s => capScoreOfTier s

/-- The currency bonus lambda:
`lambda x: 30 if x == 'USD' else (20 if x in ['EUR', 'GBP'] else 0)`.
Note the list is hard-coded; the `preferred_currencies` parameter is not
consulted here. -/
def currencyBonus (c : String) : ℚ :=
  if c = "USD" then 30 else if c = "EUR" ∨ c = "GBP" then 20 else 0

/-- `major_exchanges = ['NASDAQ', 'NYSE', 'XETRA', 'NYQ', 'XETR', 'LON', 'Euronext']`. -/
def majorExchanges : List String :=
  ["NASDAQ", "NYSE", "XETRA", "NYQ", "XETR", "LON", "Euronext"]

/-- The exchange bonus lambda:
`lambda x: 20 if any(ex in str(x).upper() for ex in major_exchanges) else 0`.
Each token is matched verbatim (case-sensitively) inside the uppercased
exchange string. -/
def exchangeBonus (x : String) : ℚ :=
  if majorExchanges.any (fun ex => hasSub ex.data (upperAscii x).data) then 20 else 0

/-- Steps 1–2 of the ranker: drop rows whose `market_cap` is NaN (when that
column exists), then keep rows whose `currency` is in `preferred_currencies`
(when that column exists).  Each filter preserves the input order. -/
def survivors (df : DF) (preferred : List String) : List Row :=
  let r1 := if df.hasMarketCap then df.rows.filter (fun r => r.marketCap.isSome) else df.rows
  if df.hasCurrency then r1.filter (fun r => preferred.contains r.currency) else r1

/-- The market-cap component added to `rank_score`:
`results['market_cap_score'].rank(pct=True) * 50`. -/
def capComponent (pop : List ℚ) (x : ℚ) : ℚ :=
  pandasRankPct pop x * 50

/-- The `rank_score` of row `r`, where `pop` is the `market_cap_score` column
of the surviving rows: starts at 0.0 and adds the three components, each
guarded by the presence of its source column. -/
def rankScore (df : DF) (pop : List ℚ) (r : Row) : ℚ :=
  (if df.hasMarketCap then capComponent pop (rowCapScore r) else 0)
    + (if df.hasCurrency then currencyBonus r.currency else 0)
    + (if df.hasExchange then exchangeBonus r.exchange else 0)

/-- The surviving rows, in input order, each paired with its `rank_score`. -/
def scoredRows (df : DF) (preferred : List String) : List (Row × ℚ) :=
  let surv := survivors df preferred
  let pop := surv.map rowCapScore
  surv.map (fun r => (r, rankScore df pop r))

/-- `get_top_energy_stocks(df, top_n, preferred_currencies)` of
`energy_stock_price_analysis.py`: filter, score, sort descending by
`rank_score`, take the first `top_n`.  The script's defaults are
`top_n = 15` and `preferred_currencies = ['USD', 'EUR', 'GBP']`.
The final `[available_select_cols]` projection only drops columns, never
rows, and every field it keeps is present in `Row`. -/
def getTopEnergyStocks (df : DF) (top_n : ℕ) (preferred : List String) : List (Row × ℚ) :=
  (sortValuesDesc (scoredRows df preferred)).take top_n

/-! ## Ranker embedding (`finance_data_transform.py`, `get_top_energy_stocks`)

The transform script defines its own copy of the ranking function; the
definitions below are transcribed from that file independently of the copies
above (only the pandas/Python library models are shared, exactly as both
scripts call the same libraries).  The transform copy differs from the
analysis copy only in `print` statements, which have no observable effect on
the returned table. -/

/-- `cap_scores` dict plus `fillna(0)` as written in `finance_data_transform.py`. -/
def capScoreOfTierT (s : String) : ℚ :=
  if s = "Micro Cap" then 1
  else if s = "Small Cap" then 2
  else if s = "Mid Cap" then 3
  else if s = "Large Cap" then 4
  else if s = "Mega Cap" then 5
  else 0

/-- `market_cap_score` column value, transform script. -/
def rowCapScoreT (r : Row) : ℚ :=
  match r.marketCap with
  | none => 0
  | some s => capScoreOfTierT s

/-- Currency bonus lambda of the transform script (same hard-coded list). -/
def currencyBonusT (c : String) : ℚ :=
  if c = "USD" then 30 else if c = "EUR" ∨ c = "GBP" then 20 else 0

/-- `major_exchanges` list of the transform script. -/
def majorExchangesT : List String :=
  ["NASDAQ", "NYSE", "XETRA", "NYQ", "XETR", "LON", "Euronext"]

/-- Exchange bonus lambda of the transform script. -/
def exchangeBonusT (x : String) : ℚ :=
  if majorExchangesT.any (fun ex => hasSub ex.data (upperAscii x).data) then 20 else 0

/-- Steps 2–3 of the transform script: `notna` market-cap filter then
preferred-currency filter, each guarded by column presence. -/
def survivorsT (df : DF) (preferred : List String) : List Row :=
  let r1 := if df.hasMarketCap then df.rows.filter (fun r => r.marketCap.isSome) else df.rows
  if df.hasCurrency then r1.filter (fun r => preferred.contains r.currency) else r1

/-- Market-cap component of the transform script. -/
def capComponentT (pop : List ℚ) (x : ℚ) : ℚ :=
  pandasRankPct pop x * 50

/-- `rank_score` of the transform script. -/
def rankScoreT (df : DF) (pop : List ℚ) (r : Row) : ℚ :=
  (if df.hasMarketCap then capComponentT pop (rowCapScoreT r) else 0)
    + (if df.hasCurrency then currencyBonusT r.currency else 0)
    + (if df.hasExchange then exchangeBonusT r.exchange else 0)

/-- Scored surviving rows, transform script. -/
def scoredRowsT (df : DF) (preferred : List String) : List (Row × ℚ) :=
  let surv := survivorsT df preferred
  let pop := surv.map rowCapScoreT
  surv.map (fun r => (r, rankScoreT df pop r))

/-- `get_top_energy_stocks` of `finance_data_transform.py` (STEPS 1–6):
same defaults `top_n = 15`, `preferred_currencies = ['USD', 'EUR', 'GBP']`. -/
def getTopEnergyStocksT (df : DF) (top_n : ℕ) (preferred : List String) : List (Row × ℚ) :=
  (sortValuesDesc (scoredRowsT df preferred)).take top_n

/-! ## Enrichment loop embedding (`energy_stock_price_analysis.py`, PHASE 2)

The loop iterates over the ranked tickers in order; for each it downloads a
year of daily bars, skips the ticker (recording it as failed) when the table
is empty, derives summary statistics, fetches per-ticker fundamentals, and
appends one report row; any exception inside the `try` block is caught and
the ticker recorded as failed.  The external world is an oracle assigning
each ticker a `TickerEnv`. -/

/-- One daily bar of the downloaded table (the loop uses the `Close` and
`Volume` columns). -/
structure PriceBar where
  close : ℚ
  volume : ℚ
deriving DecidableEq, Repr

/-- One entry of `price_data_list`.  The source formats every number into a
display string; the embedding keeps the underlying numbers.  `trailingPE`
and `dividendYield` are `none` when `info.get` falls back to the `'N/A'`
marker.  (The script also fetches `marketCap` from the fundamentals but never
puts it in the row, so it is omitted here.) -/
structure ReportRow where
  ticker : String
  company : String
  currentPrice : ℚ
  priceAgo : ℚ
  change1y : ℚ
  high52 : ℚ
  low52 : ℚ
  distanceFromHigh : ℚ
  distanceFromLow : ℚ
  avgVolume : ℚ
  latestVolume : ℚ
  trailingPE : Option ℚ
  dividendYield : Option ℚ
deriving DecidableEq, Repr

/-- The market-data oracle's behaviour for one ticker: `download` either
raises (`Except.error`) or returns the table of bars; `infoRaises` records
whether any later step of the `try` block (the `yf.Ticker(...).info` call or
the statistics) raises; the two `Option` fields are the sparse fundamentals
returned by `info.get`. -/
structure TickerEnv where
  download : Except String (List PriceBar)
  infoRaises : Bool
  trailingPE : Option ℚ
  dividendYield : Option ℚ
deriving Repr

/-- `series.iloc[-1]` on a nonempty series (0 default keeps it total). -/
def ilocLast (l : List ℚ) : ℚ := l.getLast?.getD 0

/-- `series.iloc[0]` on a nonempty series. -/
def ilocFirst (l : List ℚ) : ℚ := l.head?.getD 0

/-- `series.max()` on a nonempty series. -/
def seriesMax : List ℚ → ℚ
  | [] => 0
  | x :: xs => xs.foldl max x

/-- `series.min()` on a nonempty series. -/
def seriesMin : List ℚ → ℚ
  | [] => 0
  | x :: xs => xs.foldl min x

/-- `series.mean()`. -/
def seriesMean (l : List ℚ) : ℚ := l.sum / (l.length : ℚ)

/-- The statistics block of the loop body, which builds the dict appended to
`price_data_list` (percentage divisions are exact in `ℚ`; the source computes
them in floating point). -/
def mkReportRow (t company : String) (bars : List PriceBar) (pe dy : Option ℚ) : ReportRow :=
  let closes := bars.map PriceBar.close
  let volumes := bars.map PriceBar.volume
  let currentPrice := ilocLast closes
  let priceAgo := ilocFirst closes
  let high := seriesMax closes
  let low := seriesMin closes
  { ticker := t
    company := company
    currentPrice := currentPrice
    priceAgo := priceAgo
    change1y := (currentPrice - priceAgo) / priceAgo * 100
    high52 := high
    low52 := low
    distanceFromHigh := (high - currentPrice) / high * 100
    distanceFromLow := (currentPrice - low) / low * 100
    avgVolume := seriesMean volumes
    latestVolume := ilocLast volumes
    trailingPE := pe
    dividendYield := dy }

/-- Does the loop body fail for this ticker?  True exactly when the download
raises, or returns an empty table, or a later step raises. -/
def failTicker (e : TickerEnv) : Bool :=
  match e.download with
  | Except.error _ => true
  | Except.ok bars => bars.isEmpty || e.infoRaises

/-- One iteration of the loop body for ticker `t`: `none` means the ticker is
appended to `failed_tickers` (empty download, or an exception caught by the
`except` clause); `some row` means `row` is appended to `price_data_list`.
`names t` is `top_energy_stocks.loc[t, 'name']`. -/
def processTicker (names : String → String) (e : TickerEnv) (t : String) : Option ReportRow :=
  match e.download with
  | Except.error _ => none
  | Except.ok bars =>
    if bars.isEmpty then none
    else if e.infoRaises then none
    else some (mkReportRow t (names t) bars e.trailingPE e.dividendYield)

/-- The whole PHASE 2 loop over the ranked tickers, returning
`(price_data_list, failed_tickers)`, both built in iteration order. -/
def enrichLoop (env : String → TickerEnv) (names : String → String) :
    List String → List ReportRow × List String
  | [] => ([], [])
  | t :: ts =>
    let rest := enrichLoop env names ts
    match processTicker names (env t) t with
    | some row => (row :: rest.1, rest.2)
    | none => (rest.1, t :: rest.2)

/-! ## Spec-side definitions

These follow the specification's words, to be compared with the embedded
code; they are not transcriptions of the source. -/

/-- Spec, Ranker step 4 and glossary: the percentile rank of `x` among the
population is the fraction of the population at or below `x` computed with
the standard average-rank-for-ties convention, i.e. the mean of the 1-based
ascending ranks assigned to the tied block (`countLT + 1 … countLT + countEQ`)
divided by the population size. -/
def specPctRank (pop : List ℚ) (x : ℚ) : ℚ :=
  ((∑ i ∈ Finset.range (pop.countP (fun y => decide (y = x))),
        ((pop.countP (fun y => decide (y < x)) : ℚ) + 1 + (i : ℚ)))
      / (pop.countP (fun y => decide (y = x)) : ℚ))
    / (pop.length : ℚ)

/-- Spec, Ranker step 5: 30 if the currency equals the first preferred
currency, 20 if it is in the remaining preferred set, 0 otherwise. -/
def specCurrencyComponent (preferred : List String) (c : String) : ℚ :=
  match preferred with
  | [] => 0
  | p0 :: rest => if c = p0 then 30 else if rest.contains c then 20 else 0

/-- Spec, Ranker step 6: does the exchange string case-insensitively contain
one of the major-exchange tokens?  (Case-insensitive containment of `tok` in
`x` = containment of `tok.upper()` in `x.upper()` for ASCII data.) -/
def specExchangeMatch (x : String) : Bool :=
  majorExchanges.any (fun tok => hasSub (upperAscii tok).data (upperAscii x).data)

/-! ## Helper lemmas: counting -/

lemma countP_lt_add_countP_eq_le_length (pop : List ℚ) (x : ℚ) :
    pop.countP (fun y => decide (y < x)) + pop.countP (fun y => decide (y = x))
      ≤ pop.length := by
  induction pop with
  | nil => simp
  | cons y t ih =>
    simp only [List.countP_cons, List.length_cons]
    by_cases h2 : y = x
    · have h1 : ¬ (y < x) := by simp [h2]
      simp only [h1, h2, decide_eq_true_eq, if_true, decide_eq_false_iff_not]
      simp [h1]
      omega
    · by_cases h1 : y < x <;> simp [h1, h2] <;> omega

lemma one_le_countP_eq_of_mem {pop : List ℚ} {x : ℚ} (h : x ∈ pop) :
    1 ≤ pop.countP (fun y => decide (y = x)) := by
  have : 0 < pop.countP (fun y => decide (y = x)) :=
    List.countP_pos_iff.mpr ⟨x, h, by simp⟩
  omega

/-! ## Helper lemmas: rank bounds -/

lemma pandasRankPct_nonneg (pop : List ℚ) (x : ℚ) : 0 ≤ pandasRankPct pop x := by
  unfold pandasRankPct
  have h1 : (0 : ℚ) ≤ (pop.countP (fun y => decide (y < x)) : ℚ) := by positivity
  have h2 : (0 : ℚ) ≤ ((pop.countP (fun y => decide (y = x)) : ℚ) + 1) / 2 := by positivity
  have h3 : (0 : ℚ) ≤ (pop.length : ℚ) := by positivity
  exact div_nonneg (by linarith) h3

lemma pandasRankPct_le_one {pop : List ℚ} {x : ℚ} (h : x ∈ pop) :
    pandasRankPct pop x ≤ 1 := by
  unfold pandasRankPct
  have hn : 0 < (pop.length : ℚ) := by
    exact_mod_cast List.length_pos_of_mem h
  rw [div_le_one hn]
  have h1 := countP_lt_add_countP_eq_le_length pop x
  have h2 := one_le_countP_eq_of_mem h
  have h1q : (pop.countP (fun y => decide (y < x)) : ℚ)
      + (pop.countP (fun y => decide (y = x)) : ℚ) ≤ (pop.length : ℚ) := by
    exact_mod_cast h1
  have h2q : (1 : ℚ) ≤ (pop.countP (fun y => decide (y = x)) : ℚ) := by
    exact_mod_cast h2
  linarith

lemma capComponent_nonneg (pop : List ℚ) (x : ℚ) : 0 ≤ capComponent pop x := by
  unfold capComponent
  have := pandasRankPct_nonneg pop x
  linarith

lemma capComponent_le_fifty {pop : List ℚ} {x : ℚ} (h : x ∈ pop) :
    capComponent pop x ≤ 50 := by
  unfold capComponent
  have := pandasRankPct_le_one h
  linarith

lemma currencyBonus_bounds (c : String) : 0 ≤ currencyBonus c ∧ currencyBonus c ≤ 30 := by
  unfold currencyBonus
  split_ifs <;> norm_num

lemma exchangeBonus_bounds (x : String) : 0 ≤ exchangeBonus x ∧ exchangeBonus x ≤ 20 := by
  unfold exchangeBonus
  split_ifs <;> norm_num

lemma rankScore_bounds (df : DF) (pop : List ℚ) (r : Row) (h : rowCapScore r ∈ pop) :
    0 ≤ rankScore df pop r ∧ rankScore df pop r ≤ 100 := by
  unfold rankScore
  have hc1 := capComponent_nonneg pop (rowCapScore r)
  have hc2 := capComponent_le_fifty h
  have hb1 := currencyBonus_bounds r.currency
  have hb2 := exchangeBonus_bounds r.exchange
  split_ifs <;> constructor <;> linarith [hb1.1, hb1.2, hb2.1, hb2.2]

/-! ## Helper lemmas: structure of the ranker pipeline -/

lemma mem_getTop {df : DF} {top_n : ℕ} {preferred : List String} {p : Row × ℚ}
    (hp : p ∈ getTopEnergyStocks df top_n preferred) :
    ∃ r ∈ survivors df preferred,
      p = (r, rankScore df ((survivors df preferred).map rowCapScore) r) := by
  unfold getTopEnergyStocks sortValuesDesc at hp
  have h1 : p ∈ (scoredRows df preferred).insertionSort scoreGE :=
    List.mem_of_mem_take hp
  have h2 : p ∈ scoredRows df preferred := (List.mem_insertionSort scoreGE).mp h1
  unfold scoredRows at h2
  obtain ⟨r, hr, heq⟩ := List.mem_map.mp h2
  exact ⟨r, hr, heq.symm⟩

/-! ## Helper lemmas: structure of the enrichment loop -/

lemma processTicker_eq_none_iff (names : String → String) (e : TickerEnv) (t : String) :
    processTicker names e t = none ↔ failTicker e = true := by
  cases hd : e.download with
  | error s => simp [processTicker, failTicker, hd]
  | ok bars =>
    by_cases h1 : bars.isEmpty <;> by_cases h2 : e.infoRaises <;>
      simp [processTicker, failTicker, hd, h1, h2]

lemma processTicker_ticker {names : String → String} {e : TickerEnv} {t : String}
    {row : ReportRow} (h : processTicker names e t = some row) : row.ticker = t := by
  unfold processTicker at h
  cases hd : e.download with
  | error s => rw [hd] at h; exact absurd h (by simp)
  | ok bars =>
    rw [hd] at h
    by_cases h1 : bars.isEmpty <;> by_cases h2 : e.infoRaises <;>
      simp [h1, h2] at h
    rw [← h]
    rfl

lemma enrich_rows_map_ticker (env : String → TickerEnv) (names : String → String)
    (ts : List String) :
    ((enrichLoop env names ts).1).map ReportRow.ticker
      = ts.filter (fun t => ! failTicker (env t)) := by
  induction ts with
  | nil => rfl
  | cons t rest ih =>
    unfold enrichLoop
    cases hp : processTicker names (env t) t with
    | none =>
      have hf : failTicker (env t) = true := (processTicker_eq_none_iff _ _ _).mp hp
      simp [hp, hf, ih]
    | some row =>
      have hf : ¬ (failTicker (env t) = true) := by
        intro hc
        rw [← processTicker_eq_none_iff names (env t) t] at hc
        rw [hp] at hc
        exact absurd hc (by simp)
      have ht : row.ticker = t := processTicker_ticker hp
      simp [hp, hf, ih, ht]

lemma enrich_failed_eq (env : String → TickerEnv) (names : String → String)
    (ts : List String) :
    (enrichLoop env names ts).2 = ts.filter (fun t => failTicker (env t)) := by
  induction ts with
  | nil => rfl
  | cons t rest ih =>
    unfold enrichLoop
    cases hp : processTicker names (env t) t with
    | none =>
      have hf : failTicker (env t) = true := (processTicker_eq_none_iff _ _ _).mp hp
      simp [hp, hf, ih]
    | some row =>
      have hf : ¬ (failTicker (env t) = true) := by
        intro hc
        rw [← processTicker_eq_none_iff names (env t) t] at hc
        rw [hp] at hc
        exact absurd hc (by simp)
      simp [hp, hf, ih]

lemma length_filter_add_length_filter_not (ts : List String) (p : String → Bool) :
    (ts.filter p).length + (ts.filter (fun t => ! p t)).length = ts.length := by
  induction ts with
  | nil => rfl
  | cons t rest ih =>
    by_cases h : p t <;> simp [h, List.filter_cons] <;> omega

/-! ## Helper lemma: the average-rank closed form (Gauss sum) -/

lemma capComponent_eq_spec {pop : List ℚ} {x : ℚ} (hx : x ∈ pop) :
    capComponent pop x = 50 * specPctRank pop x := by
  unfold capComponent pandasRankPct specPctRank
  have h1 : 1 ≤ pop.countP (fun y => decide (y = x)) := one_le_countP_eq_of_mem hx
  have h2 : 0 < pop.length := List.length_pos_of_mem hx
  generalize hlt : pop.countP (fun y => decide (y < x)) = lt
  generalize heq : pop.countP (fun y => decide (y = x)) = eq
  generalize hn : pop.length = n
  rw [heq] at h1
  rw [hn] at h2
  have heqQ : ((eq : ℚ)) ≠ 0 := by
    have : (0 : ℚ) < (eq : ℚ) := by exact_mod_cast h1
    exact ne_of_gt this
  have hnQ : ((n : ℚ)) ≠ 0 := by
    have : (0 : ℚ) < (n : ℚ) := by exact_mod_cast h2
    exact ne_of_gt this
  have e1 : (∑ i ∈ Finset.range eq, ((lt : ℚ) + 1 + (i : ℚ)))
      = (eq : ℚ) * ((lt : ℚ) + 1) + ∑ i ∈ Finset.range eq, (i : ℚ) := by
    rw [Finset.sum_add_distrib, Finset.sum_const, Finset.card_range, nsmul_eq_mul]
  have e2 : (∑ i ∈ Finset.range eq, (i : ℚ)) * 2 = (eq : ℚ) * ((eq : ℚ) - 1) := by
    have hq := congrArg (fun m : ℕ => (m : ℚ)) (Finset.sum_range_id_mul_two eq)
    push_cast [Nat.cast_sub h1] at hq
    exact hq
  have hS : (∑ i ∈ Finset.range eq, ((lt : ℚ) + 1 + (i : ℚ)))
      = (eq : ℚ) * (2 * (lt : ℚ) + (eq : ℚ) + 1) / 2 := by
    rw [e1]
    linear_combination e2 / 2
  rw [hS]
  field_simp
  ring

/-! ## Claim theorems -/

/-- C3: for every surviving record, the ranker's `cap_component` (the pandas
percentile rank of its `market_cap_score` among the survivors times 50)
equals 50 times the specification's percentile rank (fraction at or below,
with the standard average-rank-for-ties convention). -/
theorem cap_component_eq_spec_percentile (df : DF) (preferred : List String) (r : Row)
    (hr : r ∈ survivors df preferred) :
    capComponent ((survivors df preferred).map rowCapScore) (rowCapScore r)
      = 50 * specPctRank ((survivors df preferred).map rowCapScore) (rowCapScore r) :=
  capComponent_eq_spec (List.mem_map_of_mem rowCapScore hr)

/-- C6: when both the market-cap and the currency column are present, every
record lacking a market-cap tier (NaN cell) or whose currency is not in
`preferred_currencies` is dropped by the two filters before scoring, and no
such record appears in the ranker's output. -/
theorem nonsurvivors_excluded (df : DF) (top_n : ℕ) (preferred : List String)
    (hmc : df.hasMarketCap = true) (hcur : df.hasCurrency = true) :
    ∀ p ∈ getTopEnergyStocks df top_n preferred,
      p.1.marketCap.isSome = true ∧ p.1.currency ∈ preferred := by
  intro p hp
  obtain ⟨r, hr, hpe⟩ := mem_getTop hp
  have hfst : p.1 = r := by rw [hpe]
  rw [hfst]
  unfold survivors at hr
  simp only [hmc, hcur, if_true] at hr
  have h2 := List.mem_filter.mp hr
  have h3 := List.mem_filter.mp h2.1
  refine ⟨h3.2, ?_⟩
  have := h2.2
  simpa using this

/-- C7: every score in the ranker's output lies in the closed interval
[0, 100] (the score is the sum of the cap, currency and exchange components,
each of which contributes 0 when its source column is absent). -/
theorem output_scores_in_range (df : DF) (top_n : ℕ) (preferred : List String) :
    ∀ p ∈ getTopEnergyStocks df top_n preferred, 0 ≤ p.2 ∧ p.2 ≤ 100 := by
  intro p hp
  obtain ⟨r, hr, hpe⟩ := mem_getTop hp
  have h2 : p.2 = rankScore df ((survivors df preferred).map rowCapScore) r := by
    rw [hpe]
  rw [h2]
  exact rankScore_bounds df _ r (List.mem_map_of_mem rowCapScore hr)

/-- C8: for positive `top_n` the ranker's output length equals
`min top_n (number of survivors)` (hence is at most either bound); an empty
input yields an empty result without error, and `top_n` larger than the
survivor count returns all survivors. -/
theorem output_length_min (df : DF) (top_n : ℕ) (preferred : List String)
    (h : 0 < top_n) :
    (getTopEnergyStocks df top_n preferred).length
        = min top_n (survivors df preferred).length
    ∧ (df.rows = [] → getTopEnergyStocks df top_n preferred = [])
    ∧ ((survivors df preferred).length ≤ top_n →
        (getTopEnergyStocks df top_n preferred).length
          = (survivors df preferred).length) := by
  have hlen : (getTopEnergyStocks df top_n preferred).length
      = min top_n (survivors df preferred).length := by
    unfold getTopEnergyStocks sortValuesDesc
    rw [List.length_take, List.length_insertionSort]
    unfold scoredRows
    rw [List.length_map]
  refine ⟨hlen, ?_, ?_⟩
  · intro hrow
    have hsurv : survivors df preferred = [] := by
      simp [survivors, hrow]
    simp [getTopEnergyStocks, sortValuesDesc, scoredRows, hsurv]
  · intro hle
    rw [hlen]
    omega

/-- C9: the ranking function of the transform script computes exactly the
same output as the ranking function of the price-analysis script on every
input table, `top_n` and `preferred_currencies` (the two copies differ only
in printed progress text). -/
theorem transform_ranker_equiv (df : DF) (top_n : ℕ) (preferred : List String) :
    getTopEnergyStocksT df top_n preferred = getTopEnergyStocks df top_n preferred :=
  rfl

/-- C4 (amended): the ranker's currency component is computed from the
hard-coded table `['USD', 'EUR', 'GBP']` — 30 for USD, 20 for EUR/GBP, 0
otherwise — and coincides with the specification's head/tail formula only
when `preferred_currencies` is exactly that default list; the
`preferred_currencies` argument itself is never consulted by the bonus. -/
theorem currency_component_fixed_table (c : String) :
    currencyBonus c = specCurrencyComponent ["USD", "EUR", "GBP"] c := by
  by_cases h1 : c = "USD"
  · subst h1
    decide
  · by_cases h2 : c = "EUR"
    · subst h2
      decide
    · by_cases h3 : c = "GBP"
      · subst h3
        decide
      · simp [currencyBonus, specCurrencyComponent, h1, h2, h3]

/-- C5: the `'Euronext'` token of `major_exchanges` can never match, because
the code tests the mixed-case token verbatim against the *uppercased*
exchange string: an exchange that case-insensitively contains "Euronext"
(spec-side predicate `specExchangeMatch`) still receives bonus 0 — even
though the script's own printed "RANKING FACTORS EXPLANATION" lists Euronext
among the bonus-earning major exchanges. -/
theorem euronext_token_unmatchable :
    exchangeBonus "Euronext Amsterdam" = 0
    ∧ specExchangeMatch "Euronext Amsterdam" = true := by
  constructor
  · decide
  · decide

/-- C2: in the enrichment loop, every ranked identifier whose download
raises, returns an empty table, or whose later per-identifier processing
raises, ends up in `failed_tickers` and contributes no report row, while the
report rows are exactly the non-failing identifiers in ranked input order
(so no per-identifier fault aborts the run). -/
theorem enrich_fault_isolation (env : String → TickerEnv) (names : String → String)
    (ts : List String) :
    (∀ t ∈ ts, failTicker (env t) = true →
        t ∈ (enrichLoop env names ts).2
          ∧ t ∉ ((enrichLoop env names ts).1).map ReportRow.ticker)
    ∧ ((enrichLoop env names ts).1).map ReportRow.ticker
        = ts.filter (fun t => ! failTicker (env t)) := by
  refine ⟨?_, enrich_rows_map_ticker env names ts⟩
  intro t ht hf
  constructor
  · rw [enrich_failed_eq]
    exact List.mem_filter.mpr ⟨ht, hf⟩
  · rw [enrich_rows_map_ticker]
    intro hc
    have hbad := (List.mem_filter.mp hc).2
    rw [hf] at hbad
    exact absurd hbad (by simp)

/-- C10: after the enrichment loop, every ranked identifier is in exactly one
of the two result collections — one report row or one failed entry, never
both and never neither — and the report row count plus the failed count
equals the ranked input count. -/
theorem enrich_partition (env : String → TickerEnv) (names : String → String)
    (ts : List String) (hnd : ts.Nodup) :
    ((enrichLoop env names ts).1).length + ((enrichLoop env names ts).2).length
        = ts.length
    ∧ ∀ t ∈ ts,
        ((((enrichLoop env names ts).1).map ReportRow.ticker).count t = 1
            ∧ t ∉ (enrichLoop env names ts).2)
          ∨ (t ∉ ((enrichLoop env names ts).1).map ReportRow.ticker
            ∧ ((enrichLoop env names ts).2).count t = 1) := by
  have hrows := enrich_rows_map_ticker env names ts
  have hfail := enrich_failed_eq env names ts
  constructor
  · have hlen1 : ((enrichLoop env names ts).1).length
        = (ts.filter (fun t => ! failTicker (env t))).length := by
      rw [← hrows, List.length_map]
    rw [hlen1, hfail]
    have hsplit := length_filter_add_length_filter_not ts (fun t => failTicker (env t))
    omega
  · intro t ht
    by_cases hf : failTicker (env t) = true
    · right
      constructor
      · rw [hrows]
        intro hc
        have hbad := (List.mem_filter.mp hc).2
        rw [hf] at hbad
        exact absurd hbad (by simp)
      · rw [hfail]
        exact List.count_eq_one_of_mem (hnd.filter _) (List.mem_filter.mpr ⟨ht, hf⟩)
    · left
      have hf2 : (! failTicker (env t)) = true := by
        simp [hf]
      constructor
      · rw [hrows]
        exact List.count_eq_one_of_mem (hnd.filter _) (List.mem_filter.mpr ⟨ht, hf2⟩)
      · rw [hfail]
        intro hc
        exact hf (List.mem_filter.mp hc).2

/-! ## Concrete sample data for counterexamples and witnesses -/

/-- A USD Mega-Cap NASDAQ instrument: survives both filters and scores
50 + 30 + 20 = 100 when alone in the table. -/
def rowUSD : Row :=
  { id := "AAA", name := "AlphaOil", marketCap := some "Mega Cap", currency := "USD",
    exchange := "NASDAQ", country := "US" }

/-- A one-row table with all three optional columns present. -/
def dfUSD : DF :=
  { hasMarketCap := true, hasCurrency := true, hasExchange := true, rows := [rowUSD] }

/-- A EUR instrument in a table whose `market_cap` and `exchange` columns are
absent, so the whole score is the currency component. -/
def rowEUR : Row :=
  { id := "E1", name := "EuroCo", marketCap := none, currency := "EUR",
    exchange := "EPA", country := "FR" }

/-- Table for the C4 counterexample: only the `currency` column is present. -/
def dfEUR : DF :=
  { hasMarketCap := false, hasCurrency := true, hasExchange := false, rows := [rowEUR] }

/-- C4 counterexample: with `preferred_currencies = ["EUR"]` the claim's
formula awards the head currency "EUR" 30 points, so the claimed output for
`dfEUR` would be `[(rowEUR, 30)]` (the other two components are absent and
contribute 0); the code awards the hard-coded 20 and returns `[(rowEUR, 20)]`. -/
theorem currency_component_spec_cex :
    getTopEnergyStocks dfEUR 1 ["EUR"]
      ≠ [(rowEUR, specCurrencyComponent ["EUR"] rowEUR.currency)] := by
  simp [getTopEnergyStocks, sortValuesDesc, scoredRows, survivors, rankScore,
    capComponent, pandasRankPct, rowCapScore, capScoreOfTier, currencyBonus,
    exchangeBonus, majorExchanges, dfEUR, rowEUR, specCurrencyComponent,
    List.insertionSort, List.orderedInsert]

/-- Environment for the enrichment witnesses: ticker "X" downloads an empty
table, every other ticker downloads one bar and succeeds. -/
def envW : String → TickerEnv := fun t =>
  if t = "X" then
    { download := Except.ok [], infoRaises := false, trailingPE := none,
      dividendYield := none }
  else
    { download := Except.ok [{ close := 1, volume := 2 }], infoRaises := false,
      trailingPE := none, dividendYield := none }

/-- Name lookup for the enrichment witnesses. -/
def namesW : String → String := fun _ => "Co"

/-! ## Witnesses -/

lemma getTop_dfUSD_eval :
    getTopEnergyStocks dfUSD 1 ["USD", "EUR", "GBP"] = [(rowUSD, 100)] := by
  simp [getTopEnergyStocks, sortValuesDesc, scoredRows, survivors, rankScore,
    capComponent, pandasRankPct, rowCapScore, capScoreOfTier, currencyBonus,
    exchangeBonus, majorExchanges, dfUSD, rowUSD, upperAscii, charUpper, hasSub,
    leadMatch, List.insertionSort, List.orderedInsert]
  norm_num

lemma mem_getTop_dfUSD :
    (rowUSD, (100 : ℚ)) ∈ getTopEnergyStocks dfUSD 1 ["USD", "EUR", "GBP"] := by
  rw [getTop_dfUSD_eval]
  exact List.mem_singleton.mpr rfl

theorem cap_component_eq_spec_percentile_witness :
    rowUSD ∈ survivors dfUSD ["USD", "EUR", "GBP"]
    ∧ capComponent ((survivors dfUSD ["USD", "EUR", "GBP"]).map rowCapScore)
          (rowCapScore rowUSD)
        = 50 * specPctRank ((survivors dfUSD ["USD", "EUR", "GBP"]).map rowCapScore)
            (rowCapScore rowUSD) :=
  ⟨by decide, cap_component_eq_spec_percentile dfUSD ["USD", "EUR", "GBP"] rowUSD (by decide)⟩

theorem nonsurvivors_excluded_witness :
    dfUSD.hasMarketCap = true ∧ dfUSD.hasCurrency = true
    ∧ (rowUSD, (100 : ℚ)) ∈ getTopEnergyStocks dfUSD 1 ["USD", "EUR", "GBP"]
    ∧ ((rowUSD, (100 : ℚ)).1.marketCap.isSome = true
        ∧ (rowUSD, (100 : ℚ)).1.currency ∈ ["USD", "EUR", "GBP"]) :=
  ⟨rfl, rfl, mem_getTop_dfUSD,
    nonsurvivors_excluded dfUSD 1 ["USD", "EUR", "GBP"] rfl rfl (rowUSD, 100) mem_getTop_dfUSD⟩

theorem output_scores_in_range_witness :
    (rowUSD, (100 : ℚ)) ∈ getTopEnergyStocks dfUSD 1 ["USD", "EUR", "GBP"]
    ∧ (0 ≤ (rowUSD, (100 : ℚ)).2 ∧ (rowUSD, (100 : ℚ)).2 ≤ 100) :=
  ⟨mem_getTop_dfUSD,
    output_scores_in_range dfUSD 1 ["USD", "EUR", "GBP"] (rowUSD, 100) mem_getTop_dfUSD⟩

theorem output_length_min_witness :
    0 < 1
    ∧ ((getTopEnergyStocks dfUSD 1 ["USD", "EUR", "GBP"]).length
          = min 1 (survivors dfUSD ["USD", "EUR", "GBP"]).length
        ∧ (dfUSD.rows = [] → getTopEnergyStocks dfUSD 1 ["USD", "EUR", "GBP"] = [])
        ∧ ((survivors dfUSD ["USD", "EUR", "GBP"]).length ≤ 1 →
            (getTopEnergyStocks dfUSD 1 ["USD", "EUR", "GBP"]).length
              = (survivors dfUSD ["USD", "EUR", "GBP"]).length)) :=
  ⟨by decide, output_length_min dfUSD 1 ["USD", "EUR", "GBP"] (by decide)⟩

theorem enrich_fault_isolation_witness :
    "X" ∈ (["X", "Y"] : List String)
    ∧ failTicker (envW "X") = true
    ∧ ("X" ∈ (enrichLoop envW namesW ["X", "Y"]).2
        ∧ "X" ∉ ((enrichLoop envW namesW ["X", "Y"]).1).map ReportRow.ticker) :=
  ⟨by decide, by decide,
    (enrich_fault_isolation envW namesW ["X", "Y"]).1 "X" (by decide) (by decide)⟩

theorem enrich_partition_witness :
    (["X", "Y"] : List String).Nodup
    ∧ (((enrichLoop envW namesW ["X", "Y"]).1).length
            + ((enrichLoop envW namesW ["X", "Y"]).2).length = (["X", "Y"] : List String).length
        ∧ ∀ t ∈ (["X", "Y"] : List String),
            ((((enrichLoop envW namesW ["X", "Y"]).1).map ReportRow.ticker).count t = 1
                ∧ t ∉ (enrichLoop envW namesW ["X", "Y"]).2)
              ∨ (t ∉ ((enrichLoop envW namesW ["X", "Y"]).1).map ReportRow.ticker
                ∧ ((enrichLoop envW namesW ["X", "Y"]).2).count t = 1)) :=
  ⟨by decide, enrich_partition envW namesW ["X", "Y"] (by decide)⟩
